import Mathlib

/-
Verification development for the favicon downloader of the mao_nav
repository (src/download_ico.py).  The Python code is shallowly embedded:
strings are modelled as lists of characters so that every operation is a
structural recursion the kernel can evaluate; the network is modelled as a
function from request URLs to optional responses (a missing response is a
transport error, i.e. httpx.RequestError); the filesystem output directory
is an association list from filenames to byte lists; the PIL image library
used by the PNG-to-ICO converter is modelled as an abstract codec record
(decode, mode conversion, ICO encoding).
-/

set_option autoImplicit false
set_option maxRecDepth 100000

namespace MaoNav

/-- Strings are modelled as lists of characters. -/
abbrev Str := List Char

/-- Coerce a Lean string literal into the character-list model. -/
def strL (s : String) : Str := s.data

/-- Python s.startswith(p): p is a prefix of s. -/
def startsWithL : Str → Str → Bool
  | [], _ => true
  | _ :: _, [] => false
  | a :: as, b :: bs => a == b && startsWithL as bs

/-- Drop the given prefix from a string, or return none when it is not a prefix. -/
def dropPrefixQ : Str → Str → Option Str
  | [], s => some s
  | _ :: _, [] => none
  | a :: as, b :: bs => if a = b then dropPrefixQ as bs else none

/-- Python membership test sub in s: sub occurs as a contiguous substring of s. -/
def occursIn (sub : Str) : Str → Bool
  | [] => startsWithL sub []
  | c :: t => startsWithL sub (c :: t) || occursIn sub t

/-- Fuel-driven worker for splitOnL, scanning left to right and consuming
non-overlapping occurrences of the separator exactly as Python str.split does. -/
def splitGo (sep : Str) : Nat → Str → Str → List Str
  | _, [], acc => [acc.reverse]
  | 0, s, acc => [acc.reverse ++ s]
  | fuel + 1, c :: rest, acc =>
    match dropPrefixQ sep (c :: rest) with
    | some r2 => acc.reverse :: splitGo sep fuel r2 []
    | none => splitGo sep fuel rest (c :: acc)

/-- Python s.split(sep) for a non-empty separator. -/
def splitOnL (s sep : Str) : List Str := splitGo sep (s.length + 1) s []

/-- Characters legal in a URL scheme after the leading letter
(letters, digits, plus, minus, dot), as in urllib.parse. -/
def isSchemeChar (c : Char) : Bool :=
  c.isAlpha || c.isDigit || c == '+' || c == '-' || c == '.'

/-- Split a string at the first colon, returning the parts before and after it. -/
def breakColon : Str → Option (Str × Str)
  | [] => none
  | c :: t =>
    if c = ':' then some ([], t)
    else
      match breakColon t with
      | some (a, b) => some (c :: a, b)
      | none => none

/-- The fields of urllib.parse.urlparse that the downloader reads. -/
structure ParsedUrl where
  scheme : Str
  netloc : Str
deriving DecidableEq, Repr

/-- Scheme extraction of urllib.parse.urlparse: the part before the first
colon is the scheme when it is non-empty, starts with a letter and contains
only scheme characters; it is lowercased.  Returns (scheme, rest). -/
def splitSchemeL (s : Str) : Str × Str :=
  match breakColon s with
  | some (before, after) =>
    match before with
    | [] => ([], s)
    | c :: cs =>
      if c.isAlpha && (c :: cs).all isSchemeChar then
        ((c :: cs).map Char.toLower, after)
      else ([], s)
  | none => ([], s)

/-- Netloc extraction of urllib.parse.urlparse: when the remainder after the
scheme starts with a double slash, the netloc runs up to the next slash,
question mark or hash. -/
def parseNetlocL (s : Str) : Str :=
  if startsWithL (strL "//") s then
    (s.drop 2).takeWhile (fun c => !(c == '/' || c == '?' || c == '#'))
  else []

/-- Model of urllib.parse.urlparse restricted to the two fields the code
reads (scheme and netloc). -/
def urlparseL (s : Str) : ParsedUrl :=
  let p := splitSchemeL s
  ⟨p.1, parseNetlocL p.2⟩

/-- A link tag produced by parsing an HTML page: its rel attribute value and
optional href attribute, in document order. -/
structure LinkTag where
  rel : Str
  href : Option Str
deriving DecidableEq, Repr

/-- An HTTP response as the downloader observes it: status code, the
Content-Type header (empty when absent), the body bytes, and the link tags
BeautifulSoup would extract from the body text. -/
structure HttpResponse where
  status : Nat
  contentType : Str
  content : List UInt8
  links : List LinkTag
deriving DecidableEq, Repr

/-- httpx Response.is_success: a 2xx status code. -/
def HttpResponse.isOk (r : HttpResponse) : Bool :=
  decide (200 ≤ r.status) && decide (r.status < 300)

/-- The network: a map from request URL to the response, none being a
transport error (httpx.RequestError / timeout). -/
abbrev World := Str → Option HttpResponse

/-- MIN_ICON_SIZE from download_ico.py. -/
def MIN_ICON_SIZE : Nat := 100

/-- ICON_CONTENT_TYPES from download_ico.py. -/
def ICON_CONTENT_TYPES : List Str := [strL "image/x-icon", strL "image/vnd.microsoft.icon"]

/-- PNG_CONTENT_TYPES from download_ico.py. -/
def PNG_CONTENT_TYPES : List Str := [strL "image/png"]

/-- FAVICON_RELS from download_ico.py. -/
def FAVICON_RELS : List Str := [strL "icon", strL "shortcut icon", strL "apple-touch-icon"]

/-- Embedding of _is_valid_icon_response: success status, body at least
MIN_ICON_SIZE bytes, and Content-Type containing an ICO or PNG MIME type. -/
def is_valid_icon_response (r : HttpResponse) : Bool :=
  if r.isOk = false ∨ r.content.length < MIN_ICON_SIZE then false
  else
    ICON_CONTENT_TYPES.any (fun t => occursIn t r.contentType)
      || PNG_CONTENT_TYPES.any (fun t => occursIn t r.contentType)

/-- Embedding of _try_favicon_ico: request base_url ++ "/favicon.ico" and
accept that URL when the response validates.  Besides the result it returns
the list of URLs requested, in order. -/
def tryFaviconIco (w : World) (base : Str) : Option Str × List Str :=
  let icoUrl := base ++ strL "/favicon.ico"
  match w icoUrl with
  | none => (none, [icoUrl])
  | some r => (if is_valid_icon_response r then some icoUrl else none, [icoUrl])

/-- BeautifulSoup soup.find("link", rel=rel): the first link tag in document
order whose rel attribute matches. -/
def findLink (links : List LinkTag) (rel : Str) : Option LinkTag :=
  links.find? (fun t => t.rel == rel)

/-- Model of urllib.parse.urljoin for the shapes the downloader meets: the
base is scheme://netloc with empty path, and the href is either absolute,
protocol-relative, root-relative, or a plain relative path. -/
def urljoinL (base href : Str) : Str :=
  if startsWithL (strL "http://") href || startsWithL (strL "https://") href then href
  else if startsWithL (strL "//") href then (splitSchemeL base).1 ++ [':'] ++ href
  else if startsWithL (strL "/") href then base ++ href
  else base ++ ['/'] ++ href

/-- The rel-priority loop of _try_html_favicon: for each rel value in order,
find the first matching link tag; when it has a non-empty href, resolve it
against the base URL and fetch it; a valid response ends the search with
that URL, an invalid response moves on to the next rel value, and a
transport error aborts the whole HTML step (the try block encloses the
loop).  Also returns the URLs requested, in order. -/
def tryRels (w : World) (base : Str) (links : List LinkTag) : List Str → Option Str × List Str
  | [] => (none, [])
  | rel :: rest =>
    match findLink links rel with
    | some t =>
      match t.href with
      | some h =>
        if h = [] then tryRels w base links rest
        else
          let u := urljoinL base h
          match w u with
          | none => (none, [u])
          | some r =>
            if is_valid_icon_response r then (some u, [u])
            else
              let later := tryRels w base links rest
              (later.1, u :: later.2)
      | none => tryRels w base links rest
    | none => tryRels w base links rest

/-- Embedding of _try_html_favicon: fetch the site page, parse its link
tags, and run the rel-priority search.  A transport error on the page fetch
yields no result. -/
def tryHtmlFavicon (w : World) (site base : Str) : Option Str × List Str :=
  match w site with
  | none => (none, [site])
  | some page =>
    let later := tryRels w base page.links FAVICON_RELS
    (later.1, site :: later.2)

/-- The base URL computed by resolve_favicon_url: scheme ++ "://" ++ netloc
of the parsed site URL. -/
def baseOf (site : Str) : Str :=
  (urlparseL site).scheme ++ strL "://" ++ (urlparseL site).netloc

/-- Embedding of resolve_favicon_url: compute the base URL from the scheme
and netloc of the site URL, try /favicon.ico first, and only on failure
fall back to parsing the site page. -/
def resolve_favicon_url (w : World) (site : Str) : Option Str × List Str :=
  let base := baseOf site
  match tryFaviconIco w base with
  | (some u, tr) => (some u, tr)
  | (none, tr) =>
    let later := tryHtmlFavicon w site base
    (later.1, tr ++ later.2)

/-- The first icon link tag the rel-priority search would select: the first
rel value in FAVICON_RELS that has a matching link tag, and that rel value's
first matching tag. -/
def firstIconTag (links : List LinkTag) : Option LinkTag :=
  (FAVICON_RELS.filterMap (fun rel => findLink links rel)).head?

/-- A decoded raster image as the PIL model sees it: its pixel mode and an
abstract token standing for its pixel content. -/
structure PILImage where
  mode : Str
  pix : Nat
deriving DecidableEq, Repr

/-- Abstract model of the PIL operations convert_png_to_ico calls:
Image.open on a byte payload (none when PIL raises), img.convert(mode), and
img.save(format=ICO, sizes=...) rendered to bytes (none when saving
raises). -/
structure Codec where
  decode : List UInt8 → Option PILImage
  convert : PILImage → Str → PILImage
  saveICO : PILImage → List (Nat × Nat) → Option (List UInt8)

/-- Embedding of convert_png_to_ico: decode the payload, convert to RGBA
when the mode differs, and re-encode as an ICO at size 32 by 32; any
failure yields the empty byte string. -/
def convert_png_to_ico (c : Codec) (data : List UInt8) : List UInt8 :=
  match c.decode data with
  | none => []
  | some img =>
    let img2 := if img.mode ≠ strL "RGBA" then c.convert img (strL "RGBA") else img
    match c.saveICO img2 [(32, 32)] with
    | none => []
    | some out => out

/-- One site entry of the dataset: its name and url fields. -/
structure Site where
  name : Str
  url : Str
deriving DecidableEq, Repr

/-- One category of the dataset: its list of sites. -/
structure Category where
  sites : List Site
deriving DecidableEq, Repr

/-- The dataset extracted from mock_data.js: its list of categories. -/
structure MockData where
  categories : List Category
deriving DecidableEq, Repr

/-- One task dictionary built by get_all_http_icons. -/
structure IconInfo where
  url : Str
  domain : Str
  filename : Str
  site_name : Str
  site_url : Str
deriving DecidableEq, Repr

/-- The domain extraction of get_all_http_icons: the last piece of the
split on "/favicon/" when the url contains "favicon/", and the netloc of
the parsed url otherwise. -/
def domainOf (icon_url : Str) : Str :=
  if occursIn (strL "favicon/") icon_url then
    (splitOnL icon_url (strL "/favicon/")).getLastD []
  else (urlparseL icon_url).netloc

/-- Embedding of get_all_http_icons: keep entries whose url starts with
"http"; the domain is extracted by domainOf and the filename appends
".ico" to the domain. -/
def get_all_http_icons (data : MockData) : List IconInfo :=
  data.categories.flatMap fun cat =>
    cat.sites.filterMap fun site =>
      if startsWithL (strL "http") site.url = false then none
      else
        some ⟨site.url, domainOf site.url, domainOf site.url ++ strL ".ico",
          site.name, site.url⟩

/-- The output directory: an association list from filenames to the byte
contents of the files present. -/
abbrev FS := List (Str × List UInt8)

/-- Embedding of download_icon: skip when the target file exists; otherwise
resolve the favicon URL, fetch it, raise for a non-success status, convert
PNG payloads to ICO, and write the bytes.  Returns the success flag, the
resulting filesystem, and the URLs requested. -/
def download_icon (w : World) (c : Codec) (fs : FS) (info : IconInfo) :
    Bool × FS × List Str :=
  if (List.lookup info.filename fs).isSome then (true, fs, [])
  else
    match resolve_favicon_url w info.url with
    | (none, tr) => (false, fs, tr)
    | (some iconUrl, tr) =>
      match w iconUrl with
      | none => (false, fs, tr ++ [iconUrl])
      | some resp =>
        if resp.isOk = false then (false, fs, tr ++ [iconUrl])
        else
          if PNG_CONTENT_TYPES.any (fun t => occursIn t resp.contentType) then
            let icon_data := convert_png_to_ico c resp.content
            if icon_data = [] then (false, fs, tr ++ [iconUrl])
            else (true, (info.filename, icon_data) :: fs, tr ++ [iconUrl])
          else (true, (info.filename, resp.content) :: fs, tr ++ [iconUrl])

/-- The aggregate result printed by main: success count, failure count, and
the failed source URLs in iteration order. -/
structure BatchResult where
  success : Nat
  failed : Nat
  failedUrls : List Str
deriving DecidableEq, Repr

/-- Embedding of the download loop of main: process the tasks in order,
threading the filesystem, counting outcomes and collecting failed URLs.
The third component records each processed task with its outcome, in
processing order. -/
def runBatch (w : World) (c : Codec) : FS → List IconInfo →
    BatchResult × FS × List (IconInfo × Bool)
  | fs, [] => (⟨0, 0, []⟩, fs, [])
  | fs, info :: rest =>
    let r := download_icon w c fs info
    let later := runBatch w c r.2.1 rest
    if r.1 then
      (⟨later.1.success + 1, later.1.failed, later.1.failedUrls⟩,
        later.2.1, (info, true) :: later.2.2)
    else
      (⟨later.1.success, later.1.failed + 1, info.url :: later.1.failedUrls⟩,
        later.2.1, (info, false) :: later.2.2)

/-- Modelled from the spec: the eligibility predicate of section 4.1,
"only absolute http/https URLs are eligible" (a scheme of http or https and
a non-empty authority).  Used to compare the spec with the code. -/
def specAbsoluteHttpUrl (u : Str) : Bool :=
  let p := urlparseL u
  (p.scheme == strL "http" || p.scheme == strL "https") && p.netloc ≠ []

/-- A network where every request is a transport error. -/
def wNone : World := fun _ => none

/-- A codec whose decode always fails, as PIL on a non-image payload. -/
def codecFail : Codec := ⟨fun _ => none, fun i _ => i, fun _ _ => none⟩

/-- A valid icon response: 200, ICO content type, 120 body bytes. -/
def respIco : HttpResponse := ⟨200, strL "image/x-icon", List.replicate 120 1, []⟩

/-- A network serving a valid /favicon.ico for ex.com and nothing else. -/
def wIco : World :=
  fun u => if u = strL "http://ex.com/favicon.ico" then some respIco else none

/-- The task built for the site http://ex.com/page. -/
def infoEx : IconInfo :=
  ⟨strL "http://ex.com/page", strL "ex.com", strL "ex.com.ico",
    strL "Ex", strL "http://ex.com/page"⟩

/-- An HTML page whose only icon link is an apple-touch-icon with a
root-relative href. -/
def pageApple : HttpResponse :=
  ⟨200, strL "text/html", List.replicate 10 0,
    [⟨strL "apple-touch-icon", some (strL "/a.png")⟩]⟩

/-- A valid PNG response: 200, PNG content type, 150 body bytes. -/
def respPng : HttpResponse := ⟨200, strL "image/png", List.replicate 150 2, []⟩

/-- A network serving the apple-touch-icon page at the site URL and a valid
PNG at the resolved icon URL. -/
def wApple : World := fun u =>
  if u = strL "http://s.com" then some pageApple
  else if u = strL "http://s.com/a.png" then some respPng
  else none

/-- Dataset with one icon-proxy URL, the example of the spec. -/
def dataProxy : MockData :=
  ⟨[⟨[⟨strL "P", strL "http://icon.example/favicon/foo.com"⟩]⟩]⟩

/-- Dataset with a URL containing "favicon/" but not "/favicon/". -/
def dataNoSlash : MockData :=
  ⟨[⟨[⟨strL "X", strL "http://icon.example/xfavicon/foo.com"⟩]⟩]⟩

/-- Dataset with an icon-proxy URL whose suffix contains a path separator. -/
def dataSlashSuffix : MockData :=
  ⟨[⟨[⟨strL "Y", strL "http://icon.example/favicon/a/b"⟩]⟩]⟩

/-- Dataset with an entry that starts with "http" without being a URL. -/
def dataHttpFoo : MockData := ⟨[⟨[⟨strL "Z", strL "httpfoo"⟩]⟩]⟩

/-- Dataset with an absolute http URL whose scheme is upper-case. -/
def dataUpper : MockData := ⟨[⟨[⟨strL "U", strL "HTTP://example.com/"⟩]⟩]⟩

/-- The bytes the modelled PIL encoder produces, distinct from every
payload used in the examples. -/
def icoOut : List UInt8 := [0, 0, 1, 0]

/-- A codec that decodes every payload to an RGBA image and encodes it to
icoOut, as PIL on a well-formed PNG. -/
def codecPil : Codec :=
  ⟨fun _ => some ⟨strL "RGBA", 0⟩, fun i m => ⟨m, i.pix⟩, fun _ _ => some icoOut⟩

/-- A 200 response whose Content-Type contains both an icon MIME type and
the PNG MIME type. -/
def respBoth : HttpResponse :=
  ⟨200, strL "image/x-icon, image/png", List.replicate 100 7, []⟩

/-- A network serving respBoth at the favicon URL of ex.com. -/
def wBoth : World :=
  fun u => if u = strL "http://ex.com/favicon.ico" then some respBoth else none

/-- A network serving the valid PNG response at the favicon URL of ex.com. -/
def wPngIco : World :=
  fun u => if u = strL "http://ex.com/favicon.ico" then some respPng else none

/-- Helper: the batch runner records every task, in order, as processed. -/
theorem runBatch_processed (w : World) (c : Codec) :
    ∀ (tasks : List IconInfo) (fs : FS),
      ((runBatch w c fs tasks).2.2).map Prod.fst = tasks := by
  intro tasks
  induction tasks with
  | nil => intro fs; rfl
  | cons info rest ih =>
    intro fs
    by_cases hr : (download_icon w c fs info).1 = true <;>
      simp [runBatch, hr, ih]

/-- Helper: every member of the task list has its domain computed by
domainOf and its filename equal to the domain followed by ".ico". -/
theorem get_all_http_icons_shape (data : MockData) (info : IconInfo) :
    info ∈ get_all_http_icons data →
      info.domain = domainOf info.url ∧ info.filename = info.domain ++ strL ".ico" := by
  intro h
  rw [get_all_http_icons, List.mem_flatMap] at h
  obtain ⟨cat, _, h2⟩ := h
  rw [List.mem_filterMap] at h2
  obtain ⟨site, _, heq⟩ := h2
  by_cases hs : startsWithL (strL "http") site.url = false
  · simp [hs] at heq
  · simp [hs] at heq
    subst heq
    exact ⟨rfl, rfl⟩

/-- Helper: a longer pattern being a prefix makes every shorter pattern a
prefix as well. -/
theorem startsWithL_of_append (a b s : Str) :
    startsWithL (a ++ b) s = true → startsWithL a s = true := by
  induction a generalizing s with
  | nil => intro _; rfl
  | cons c cs ih =>
    intro h
    cases s with
    | nil => simp [startsWithL] at h
    | cons d ds =>
      simp only [List.cons_append, startsWithL, Bool.and_eq_true] at h ⊢
      exact ⟨h.1, ih ds h.2⟩

/-- C1: a candidate HTTP response is accepted as a valid icon if and only
if its status is a success status, its body length is at least 100 bytes,
and its Content-Type header matches an icon MIME type (image/x-icon or
image/vnd.microsoft.icon) or a PNG MIME type (image/png); in particular a
200 response with Content-Type text/html is rejected, and a response with a
correct content-type but fewer than 100 body bytes is rejected. -/
theorem c1_valid_icon_response (r : HttpResponse) :
    (is_valid_icon_response r = true ↔
      (r.isOk = true ∧ MIN_ICON_SIZE ≤ r.content.length ∧
        ((∃ t ∈ ICON_CONTENT_TYPES, occursIn t r.contentType = true) ∨
         (∃ t ∈ PNG_CONTENT_TYPES, occursIn t r.contentType = true))))
    ∧ (r.status = 200 → r.contentType = strL "text/html" →
        is_valid_icon_response r = false)
    ∧ (((∃ t ∈ ICON_CONTENT_TYPES, occursIn t r.contentType = true) ∨
        (∃ t ∈ PNG_CONTENT_TYPES, occursIn t r.contentType = true)) →
       r.content.length < MIN_ICON_SIZE → is_valid_icon_response r = false) := by
  refine ⟨?_, ?_, ?_⟩
  · rw [is_valid_icon_response]
    split
    · rename_i hcond
      constructor
      · intro h; cases h
      · rintro ⟨hok, hlen, _⟩
        rcases hcond with h | h
        · rw [hok] at h; cases h
        · omega
    · rename_i hcond
      push_neg at hcond
      obtain ⟨hok, hlen⟩ := hcond
      simp only [Bool.or_eq_true, List.any_eq_true]
      constructor
      · intro h
        exact ⟨eq_true_of_ne_false hok, by omega, h⟩
      · rintro ⟨_, _, h⟩
        exact h
  · intro _ hct
    rw [is_valid_icon_response]
    split
    · rfl
    · rw [hct]
      decide
  · intro _ hlen
    rw [is_valid_icon_response]
    split
    · rfl
    · rename_i hcond
      exact absurd (Or.inr hlen) hcond

/-- Witness for C1 at a concrete response: a 200 text/html response of 200
body bytes is rejected. -/
theorem c1_valid_icon_response_witness :
    is_valid_icon_response ⟨200, strL "text/html", List.replicate 200 0, []⟩ = false :=
  (c1_valid_icon_response _).2.1 rfl rfl

/-- C2: in the HTML fallback step the locator searches the link tags by rel
value in the priority order icon, shortcut icon, apple-touch-icon; the
first tag found this way wins; its href is resolved against the base URL
(absolute and root-relative and relative hrefs are handled) and the
resolved URL is fetched and returned when it passes the validity check. -/
theorem c2_html_fallback (w : World) (site base : Str) :
    (∀ (page : HttpResponse) (t : LinkTag) (h : Str) (r : HttpResponse),
      w site = some page →
      firstIconTag page.links = some t →
      t.href = some h → h ≠ [] →
      w (urljoinL base h) = some r →
      is_valid_icon_response r = true →
      tryHtmlFavicon w site base = (some (urljoinL base h), [site, urljoinL base h]))
    ∧ (∀ h, startsWithL (strL "http://") h = true ∨ startsWithL (strL "https://") h = true →
        urljoinL base h = h)
    ∧ (∀ h, startsWithL (strL "/") h = true → startsWithL (strL "//") h = false →
        startsWithL (strL "http://") h = false → startsWithL (strL "https://") h = false →
        urljoinL base h = base ++ h)
    ∧ (∀ h, startsWithL (strL "http://") h = false → startsWithL (strL "https://") h = false →
        startsWithL (strL "//") h = false → startsWithL (strL "/") h = false →
        urljoinL base h = base ++ ['/'] ++ h) := by
  refine ⟨?_, ?_, ?_, ?_⟩
  · intro page t h r hw hfirst hhref hne hwr hvalid
    have hbody : tryRels w base page.links FAVICON_RELS
        = (some (urljoinL base h), [urljoinL base h]) := by
      rcases hf1 : findLink page.links (strL "icon") with _ | t1
      · rcases hf2 : findLink page.links (strL "shortcut icon") with _ | t2
        · rcases hf3 : findLink page.links (strL "apple-touch-icon") with _ | t3
          · rw [firstIconTag, FAVICON_RELS] at hfirst
            simp [hf1, hf2, hf3] at hfirst
          · have ht : t3 = t := by
              rw [firstIconTag, FAVICON_RELS] at hfirst
              simpa [hf1, hf2, hf3] using hfirst
            subst ht
            rw [FAVICON_RELS]
            simp [tryRels, hf1, hf2, hf3, hhref, hne, hwr, hvalid]
        · have ht : t2 = t := by
            rw [firstIconTag, FAVICON_RELS] at hfirst
            simpa [hf1, hf2] using hfirst
          subst ht
          rw [FAVICON_RELS]
          simp [tryRels, hf1, hf2, hhref, hne, hwr, hvalid]
      · have ht : t1 = t := by
          rw [firstIconTag, FAVICON_RELS] at hfirst
          simpa [hf1] using hfirst
        subst ht
        rw [FAVICON_RELS]
        simp [tryRels, hf1, hhref, hne, hwr, hvalid]
    simp [tryHtmlFavicon, hw, hbody]
  · intro h hp
    rw [urljoinL]
    rcases hp with hp | hp <;> simp [hp]
  · intro h h1 h2 h3 h4
    rw [urljoinL]
    simp [h1, h2, h3, h4]
  · intro h h1 h2 h3 h4
    rw [urljoinL]
    simp [h1, h2, h3, h4]

/-- Witness for C2 at the concrete example of the claim: a page whose only
icon link is an apple-touch-icon with root-relative href /a.png, which
resolves and validates, is chosen. -/
theorem c2_html_fallback_witness :
    tryHtmlFavicon wApple (strL "http://s.com") (strL "http://s.com")
      = (some (strL "http://s.com/a.png"),
          [strL "http://s.com", strL "http://s.com/a.png"]) :=
  (c2_html_fallback wApple (strL "http://s.com") (strL "http://s.com")).1
    pageApple ⟨strL "apple-touch-icon", some (strL "/a.png")⟩ (strL "/a.png") respPng
    (by decide) (by decide) rfl (by decide) (by decide) (by decide)

/-- C3: the locator computes the base URL as scheme plus authority of the
site URL and always requests base ++ "/favicon.ico" first; when that
response validates, that URL is returned and no further request is made (in
particular the site page is not fetched or parsed); only otherwise does it
proceed to fetching the site URL and parsing its HTML. -/
theorem c3_resolution_order (w : World) (site : Str) :
    ((resolve_favicon_url w site).2.head? = some (baseOf site ++ strL "/favicon.ico"))
    ∧ (∀ r, w (baseOf site ++ strL "/favicon.ico") = some r →
        is_valid_icon_response r = true →
        resolve_favicon_url w site
          = (some (baseOf site ++ strL "/favicon.ico"),
              [baseOf site ++ strL "/favicon.ico"]))
    ∧ ((∀ r, w (baseOf site ++ strL "/favicon.ico") = some r →
          is_valid_icon_response r = false) →
        resolve_favicon_url w site
          = ((tryHtmlFavicon w site (baseOf site)).1,
              (baseOf site ++ strL "/favicon.ico")
                :: (tryHtmlFavicon w site (baseOf site)).2)) := by
  rcases hw : w (baseOf site ++ strL "/favicon.ico") with _ | r
  · refine ⟨?_, ?_, ?_⟩
    · simp [resolve_favicon_url, tryFaviconIco, hw]
    · intro r hr
      exact Option.noConfusion hr
    · intro _
      simp [resolve_favicon_url, tryFaviconIco, hw]
  · by_cases hv : is_valid_icon_response r = true
    · refine ⟨?_, ?_, ?_⟩
      · simp [resolve_favicon_url, tryFaviconIco, hw, hv]
      · intro r2 hr2 _
        injection hr2 with hr2
        subst hr2
        simp [resolve_favicon_url, tryFaviconIco, hw, hv]
      · intro hall
        have hcontra := hall r rfl
        rw [hv] at hcontra
        cases hcontra
    · rw [Bool.not_eq_true] at hv
      refine ⟨?_, ?_, ?_⟩
      · simp [resolve_favicon_url, tryFaviconIco, hw, hv]
      · intro r2 hr2 hv2
        injection hr2 with hr2
        subst hr2
        rw [hv2] at hv
        cases hv
      · intro _
        simp [resolve_favicon_url, tryFaviconIco, hw, hv]

/-- Witness for C3 at a concrete network: the favicon of ex.com validates,
so it is returned and the only request made is the favicon request. -/
theorem c3_resolution_order_witness :
    resolve_favicon_url wIco (strL "http://ex.com/page")
      = (some (strL "http://ex.com/favicon.ico"), [strL "http://ex.com/favicon.ico"]) :=
  (c3_resolution_order wIco (strL "http://ex.com/page")).2.1 respIco
    (by decide) (by decide)

/-- Counterexample to C4: for the URL http://icon.example/xfavicon/foo.com,
which contains "favicon/" but not "/favicon/", the branch for the
icon-proxy segment fires yet the split finds no separator, so the
domain key is the whole URL: it is neither the suffix after the segment
(foo.com) nor the network authority (icon.example). -/
theorem c4_domain_key_counterexample :
    (get_all_http_icons dataNoSlash).map (fun i => i.domain)
        = [strL "http://icon.example/xfavicon/foo.com"]
      ∧ occursIn (strL "favicon/") (strL "http://icon.example/xfavicon/foo.com") = true
      ∧ (urlparseL (strL "http://icon.example/xfavicon/foo.com")).netloc
          = strL "icon.example"
      ∧ strL "http://icon.example/xfavicon/foo.com" ≠ strL "foo.com"
      ∧ strL "http://icon.example/xfavicon/foo.com" ≠ strL "icon.example" := by
  refine ⟨by decide, by decide, by decide, by decide, by decide⟩

/-- C4 as amended: the branch condition is containment of "favicon/" while
the suffix is taken by splitting on "/favicon/"; when the branch fires the
domain key is the last piece of that split (so for a URL containing
"favicon/" but not "/favicon/" it is the whole URL), and otherwise it is
the network authority of the parsed URL; on the icon-proxy example the
domain key is the exact suffix foo.com. -/
theorem c4_domain_key_amended :
    (∀ (data : MockData) (info : IconInfo), info ∈ get_all_http_icons data →
      (occursIn (strL "favicon/") info.url = true →
        info.domain = (splitOnL info.url (strL "/favicon/")).getLastD [])
      ∧ (occursIn (strL "favicon/") info.url = false →
        info.domain = (urlparseL info.url).netloc))
    ∧ (get_all_http_icons dataProxy).map (fun i => i.domain) = [strL "foo.com"] := by
  constructor
  · intro data info hmem
    have hd := (get_all_http_icons_shape data info hmem).1
    constructor
    · intro hocc
      rw [hd, domainOf, if_pos hocc]
    · intro hocc
      rw [hd, domainOf, if_neg (by rw [hocc]; exact Bool.false_ne_true)]
  · decide

/-- Witness for C4 as amended, at the icon-proxy example of the spec: the
domain key of http://icon.example/favicon/foo.com is the last piece of the
split on "/favicon/". -/
theorem c4_domain_key_amended_witness :
    (IconInfo.mk (strL "http://icon.example/favicon/foo.com") (strL "foo.com")
        (strL "foo.com.ico") (strL "P") (strL "http://icon.example/favicon/foo.com")).domain
      = (splitOnL (strL "http://icon.example/favicon/foo.com")
          (strL "/favicon/")).getLastD [] :=
  (c4_domain_key_amended.1 dataProxy _ (by decide)).1 (by decide)

/-- Counterexample to C5: the task built for the URL
http://icon.example/favicon/a/b has domain key "a/b", which contains the
path separator, so the domain key placed in the task list is not
filesystem-safe. -/
theorem c5_filename_counterexample :
    (get_all_http_icons dataSlashSuffix).map (fun i => i.domain) = [strL "a/b"]
      ∧ '/' ∈ strL "a/b" := by
  refine ⟨by decide, by decide⟩

/-- C5 as amended: for every task placed in the task list the target
filename equals the domain key followed by the fixed icon extension ".ico";
the domain key is not guaranteed to be non-empty or free of path
separators. -/
theorem c5_filename_amended (data : MockData) (info : IconInfo) :
    info ∈ get_all_http_icons data → info.filename = info.domain ++ strL ".ico" :=
  fun hmem => (get_all_http_icons_shape data info hmem).2

/-- Witness for C5 as amended at a concrete task of the icon-proxy
dataset. -/
theorem c5_filename_amended_witness :
    (IconInfo.mk (strL "http://icon.example/favicon/foo.com") (strL "foo.com")
        (strL "foo.com.ico") (strL "P")
        (strL "http://icon.example/favicon/foo.com")).filename
      = strL "foo.com" ++ strL ".ico" :=
  c5_filename_amended dataProxy _ (by decide)

/-- Counterexample to C6: the entry "httpfoo" is not an absolute http or
https URL (it has no scheme and no authority) yet it is included in the
task list; conversely the absolute URL "HTTP://example.com/" with an
upper-case scheme is excluded from the task list. -/
theorem c6_eligibility_counterexample :
    (get_all_http_icons dataHttpFoo).map (fun i => i.url) = [strL "httpfoo"]
      ∧ specAbsoluteHttpUrl (strL "httpfoo") = false
      ∧ get_all_http_icons dataUpper = []
      ∧ specAbsoluteHttpUrl (strL "HTTP://example.com/") = true := by
  refine ⟨by decide, by decide, by decide, by decide⟩

/-- C6 as amended: an entry of the dataset is included in the task list if
and only if its URL string starts with the literal prefix "http"; entries
failing that check are excluded from the task list entirely at construction
time (so a batch over only such entries counts nothing as a failure). -/
theorem c6_eligibility_amended (s : Site) :
    (startsWithL (strL "http") s.url = true →
      (get_all_http_icons ⟨[⟨[s]⟩]⟩).map (fun i => i.url) = [s.url])
    ∧ (startsWithL (strL "http") s.url = false →
      get_all_http_icons ⟨[⟨[s]⟩]⟩ = [])
    ∧ (∀ (w : World) (c : Codec) (fs : FS),
        startsWithL (strL "http") s.url = false →
        runBatch w c fs (get_all_http_icons ⟨[⟨[s]⟩]⟩) = (⟨0, 0, []⟩, fs, [])) := by
  refine ⟨?_, ?_, ?_⟩
  · intro h
    simp [get_all_http_icons, h]
  · intro h
    simp [get_all_http_icons, h]
  · intro w c fs h
    simp [get_all_http_icons, h, runBatch]

/-- Witness for C6 as amended: the relative entry "/icons/x.png" is
excluded from the task list. -/
theorem c6_eligibility_amended_witness :
    get_all_http_icons ⟨[⟨[⟨strL "R", strL "/icons/x.png"⟩]⟩]⟩ = [] :=
  (c6_eligibility_amended ⟨strL "R", strL "/icons/x.png"⟩).2.1 (by decide)

/-- Counterexample to C7: a persisted 200 response whose Content-Type
matches an icon MIME type (it contains image/x-icon) but also contains
image/png is converted rather than written unchanged: the bytes written are
the encoder output, not the fetched payload. -/
theorem c7_format_adapter_counterexample :
    ICON_CONTENT_TYPES.any (fun t => occursIn t respBoth.contentType) = true
      ∧ (download_icon wBoth codecPil [] infoEx).1 = true
      ∧ List.lookup infoEx.filename (download_icon wBoth codecPil [] infoEx).2.1
          = some icoOut
      ∧ icoOut ≠ respBoth.content := by
  refine ⟨by decide, by decide, by decide, by decide⟩

/-- C7 as amended: for every confirmed icon response that is persisted, if
its declared Content-Type matches a PNG MIME type (this check takes
precedence) the payload is decoded, forced into the RGBA pixel format when
its mode differs, and re-encoded as an ICO at the fixed size 32 by 32
before being written; if it does not match a PNG MIME type (in particular
when it matches an icon MIME type) the bytes written are exactly the
fetched payload; a decode or re-encode failure yields a failed task outcome
without aborting the batch. -/
theorem c7_format_adapter (w : World) (c : Codec) (fs : FS) (info : IconInfo)
    (iconUrl : Str) (tr : List Str) (resp : HttpResponse) :
    List.lookup info.filename fs = none →
    resolve_favicon_url w info.url = (some iconUrl, tr) →
    w iconUrl = some resp →
    resp.isOk = true →
    ((PNG_CONTENT_TYPES.any (fun t => occursIn t resp.contentType) = true →
        (∀ img, c.decode resp.content = some img →
          convert_png_to_ico c resp.content
            = (c.saveICO
                (if img.mode ≠ strL "RGBA" then c.convert img (strL "RGBA") else img)
                [(32, 32)]).getD [])
        ∧ (c.decode resp.content = none → convert_png_to_ico c resp.content = [])
        ∧ (convert_png_to_ico c resp.content ≠ [] →
            download_icon w c fs info
              = (true, (info.filename, convert_png_to_ico c resp.content) :: fs,
                  tr ++ [iconUrl]))
        ∧ (convert_png_to_ico c resp.content = [] →
            download_icon w c fs info = (false, fs, tr ++ [iconUrl])
            ∧ ∀ rest, ((runBatch w c fs (info :: rest)).2.2).map Prod.fst
                = info :: rest))
    ∧ (PNG_CONTENT_TYPES.any (fun t => occursIn t resp.contentType) = false →
        download_icon w c fs info
          = (true, (info.filename, resp.content) :: fs, tr ++ [iconUrl]))) := by
  intro hfs hres hw hok
  have hlk : (List.lookup info.filename fs).isSome = false := by rw [hfs]; rfl
  constructor
  · intro hpng
    refine ⟨?_, ?_, ?_, ?_⟩
    · intro img hdec
      rw [convert_png_to_ico, hdec]
      cases hsave : c.saveICO
          (if img.mode ≠ strL "RGBA" then c.convert img (strL "RGBA") else img)
          [(32, 32)] <;>
        simp only [ne_eq, ite_not] at hsave <;> simp [hsave]
    · intro hdec
      rw [convert_png_to_ico, hdec]
    · intro hconv
      simp [download_icon, hlk, hres, hw, hok, hpng, hconv]
    · intro hconv
      constructor
      · simp [download_icon, hlk, hres, hw, hok, hpng, hconv]
      · intro rest
        exact runBatch_processed w c (info :: rest) fs
  · intro hpng
    simp [download_icon, hlk, hres, hw, hok, hpng]

/-- Witness for C7 as amended at a concrete task: a valid PNG favicon is
decoded by the codec and the encoder output is written. -/
theorem c7_format_adapter_witness :
    download_icon wPngIco codecPil [] infoEx
      = (true, [(strL "ex.com.ico", icoOut)],
          [strL "http://ex.com/favicon.ico", strL "http://ex.com/favicon.ico"]) := by
  have hmain := (c7_format_adapter wPngIco codecPil [] infoEx
      (strL "http://ex.com/favicon.ico") [strL "http://ex.com/favicon.ico"] respPng
      (by decide) (by decide) (by decide) (by decide)).1 (by decide)
  have hcall := hmain.2.2.1 (by decide)
  exact hcall

/-- C8: the batch runner processes the tasks in their original insertion
order and processes every task; the success count plus the failure count
equals the number of tasks; and the failed-URL list contains exactly the
source URLs of the failed tasks, in the original iteration order. -/
theorem c8_batch_runner (w : World) (c : Codec) (fs : FS) (tasks : List IconInfo) :
    (((runBatch w c fs tasks).2.2).map Prod.fst = tasks)
    ∧ ((runBatch w c fs tasks).1.success + (runBatch w c fs tasks).1.failed
        = tasks.length)
    ∧ ((runBatch w c fs tasks).1.failedUrls
        = (((runBatch w c fs tasks).2.2).filter (fun p => !p.2)).map
            (fun p => p.1.url)) := by
  refine ⟨runBatch_processed w c tasks fs, ?_, ?_⟩
  · induction tasks generalizing fs with
    | nil => rfl
    | cons info rest ih =>
      have hc := ih ((download_icon w c fs info).2.1)
      by_cases hr : (download_icon w c fs info).1 = true <;>
        simp [runBatch, hr] <;> omega
  · induction tasks generalizing fs with
    | nil => rfl
    | cons info rest ih =>
      by_cases hr : (download_icon w c fs info).1 = true <;>
        simp [runBatch, hr, ih]

/-- C9: a task whose target file already exists is skipped: no network
request is issued, the filesystem is unchanged, and in a batch the task is
counted as a success, adds nothing to the failure count and contributes no
URL to the failed-URL list. -/
theorem c9_skip_existing (w : World) (c : Codec) (fs : FS) (info : IconInfo) :
    (List.lookup info.filename fs).isSome = true →
    download_icon w c fs info = (true, fs, [])
    ∧ ∀ rest, runBatch w c fs (info :: rest)
        = (⟨(runBatch w c fs rest).1.success + 1, (runBatch w c fs rest).1.failed,
            (runBatch w c fs rest).1.failedUrls⟩,
          (runBatch w c fs rest).2.1, (info, true) :: (runBatch w c fs rest).2.2) := by
  intro h
  have hd : download_icon w c fs info = (true, fs, []) := by
    rw [download_icon, if_pos h]
  refine ⟨hd, ?_⟩
  intro rest
  simp [runBatch, hd]

/-- Witness for C9 at a concrete filesystem that already contains the
target file ex.com.ico: the task is skipped with no request and counted as
the sole success of a singleton batch. -/
theorem c9_skip_existing_witness :
    download_icon wNone codecFail [(strL "ex.com.ico", [9])] infoEx
        = (true, [(strL "ex.com.ico", [9])], [])
      ∧ runBatch wNone codecFail [(strL "ex.com.ico", [9])] [infoEx]
        = (⟨1, 0, []⟩, [(strL "ex.com.ico", [9])], [(infoEx, true)]) := by
  have hmain := c9_skip_existing wNone codecFail [(strL "ex.com.ico", [9])] infoEx
    (by decide)
  exact ⟨hmain.1, hmain.2 []⟩

/-- C10: for a task whose target file does not exist, a failure before the
write step (no icon URL found, a transport error or non-success status on
the confirming fetch, or an empty PNG conversion result) yields a failed
outcome and leaves the filesystem unchanged: no file is created at the
target path. -/
theorem c10_failure_frame (w : World) (c : Codec) (fs : FS) (info : IconInfo) :
    List.lookup info.filename fs = none →
    ((resolve_favicon_url w info.url).1 = none →
      download_icon w c fs info = (false, fs, (resolve_favicon_url w info.url).2))
    ∧ (∀ u tr, resolve_favicon_url w info.url = (some u, tr) → w u = none →
        download_icon w c fs info = (false, fs, tr ++ [u]))
    ∧ (∀ u tr resp, resolve_favicon_url w info.url = (some u, tr) →
        w u = some resp → resp.isOk = false →
        download_icon w c fs info = (false, fs, tr ++ [u]))
    ∧ (∀ u tr resp, resolve_favicon_url w info.url = (some u, tr) →
        w u = some resp → resp.isOk = true →
        PNG_CONTENT_TYPES.any (fun t => occursIn t resp.contentType) = true →
        convert_png_to_ico c resp.content = [] →
        download_icon w c fs info = (false, fs, tr ++ [u])) := by
  intro hfs
  have hlk : (List.lookup info.filename fs).isSome = false := by rw [hfs]; rfl
  refine ⟨?_, ?_, ?_, ?_⟩
  · intro hres
    rcases hr : resolve_favicon_url w info.url with ⟨ores, tr⟩
    rw [hr] at hres
    simp only at hres
    subst hres
    simp [download_icon, hlk, hr]
  · intro u tr hres hw
    simp [download_icon, hlk, hres, hw]
  · intro u tr resp hres hw hok
    simp [download_icon, hlk, hres, hw, hok]
  · intro u tr resp hres hw hok hpng hconv
    simp [download_icon, hlk, hres, hw, hok, hpng, hconv]

/-- Witness for C10 at a network where every request fails: the locator
finds nothing, the task fails, and the empty filesystem is unchanged. -/
theorem c10_failure_frame_witness :
    download_icon wNone codecFail [] infoEx
      = (false, [],
          [strL "http://ex.com/favicon.ico", strL "http://ex.com/page"]) := by
  have hmain := (c10_failure_frame wNone codecFail [] infoEx (by decide)).1 (by decide)
  exact hmain

end MaoNav
